import Mathlib

/-!
Shallow embedding of the IntraCom agent-bus server (src/src/index.ts).

The server keeps one in-memory `BusState` holding a registry of agents and a
map of per-agent mailboxes, both stored as JavaScript objects keyed by
strings.  We model those objects as insertion-ordered association lists:
assigning to an existing key replaces the value in place, assigning to a new
key appends it, and `delete` removes the entry.  The SHA-256 digest is an
external collaborator, so every operation is parameterized by an abstract
`hash : String → String`.  Message ids and timestamps come from the
environment (`crypto.randomUUID()`, `Date.now()`) and are passed in as
arguments.  Persistence (`loadState`/`saveState`) only mirrors the in-memory
state and is outside the embedded core.
-/

namespace Intracom

/-- Lookup in a JS object modelled as an association list
(`state.agents[agentId]` and friends). -/
def getKey {α : Type} : List (String × α) → String → Option α
  | [], _ => none
  | (k, v) :: rest, key => if k = key then some v else getKey rest key

/-- Assignment `obj[key] = v` on a JS object: replaces the value in place when
the key exists, otherwise appends the new entry. -/
def setKey {α : Type} : List (String × α) → String → α → List (String × α)
  | [], key, v => [(key, v)]
  | (k, w) :: rest, key, v =>
    if k = key then (k, v) :: rest else (k, w) :: setKey rest key v

/-- Deletion `delete obj[key]` on a JS object. -/
def delKey {α : Type} : List (String × α) → String → List (String × α)
  | [], _ => []
  | (k, w) :: rest, key => if k = key then rest else (k, w) :: delKey rest key

/-- JS truthiness of an optional string: `undefined` and the empty string are
both falsy.  The source relies on this in `checkToken` (`agent.tokenHash &&`,
`!token`), in `agent_register` (`token ? ... : undefined`) and in
`message_peek` (`if (agentId)`). -/
def strTruthy : Option String → Bool
  | none => false
  | some s => s ≠ ""

/-- Registered agent record (interface `Agent`).  `J` stands for the opaque
JSON values put in `capabilities` (`Record<string, unknown>`). -/
structure Agent (J : Type) where
  agentId : String
  capabilities : J
  allowlist : List String
  tokenHash : Option String
deriving DecidableEq

/-- Queued message (interface `Message`). -/
structure Message (J : Type) where
  id : String
  ts : Int
  «from» : String
  «to» : String
  body : String
  meta : Option J
deriving DecidableEq

/-- The single persisted aggregate (interface `BusState`). -/
structure BusState (J : Type) where
  agents : List (String × Agent J)
  mailboxes : List (String × List (Message J))
deriving DecidableEq

/-- Entry of the `agent_list` result: the three fields exposed per agent,
`tokenHash` omitted. -/
structure AgentView (J : Type) where
  agentId : String
  capabilities : J
  allowlist : List String
deriving DecidableEq

/-- Payload of the `message_read` result. -/
structure ReadResult (J : Type) where
  agentId : String
  count : Nat
  remaining : Nat
  messages : List (Message J)
deriving DecidableEq

/-- Error taxonomy: one constructor per `throw new Error(...)` site of the
dispatcher and its helpers. -/
inductive BusError where
  | AgentNotFound (agentId : String)
  | Unauthorized
  | NotAllowed («from» «to» : String)
  | UnknownTool (name : String)
deriving DecidableEq

/-- Discriminator for `Except` results (the dispatcher's catch-all turns
`.error` into the uniform error payload with `isError: true`). -/
def isOkE {ε α : Type} : Except ε α → Bool
  | .ok _ => true
  | .error _ => false

/-- Helper `requireAgent` (index.ts:75-79). -/
def requireAgent {J : Type} (st : BusState J) (agentId : String) :
    Except BusError (Agent J) :=
  match getKey st.agents agentId with
  | some a => .ok a
  | none => .error (.AgentNotFound agentId)

/-- Helper `checkToken` (index.ts:81-85).  The JS guard is
`agent.tokenHash && (!token || hashToken(token) !== agent.tokenHash)`:
an empty `tokenHash` is falsy and disables the check, and an empty `token`
is falsy and counts as missing. -/
def checkToken {J : Type} (hash : String → String) (agent : Agent J)
    (token? : Option String) : Except BusError Unit :=
  match agent.tokenHash with
  | none => .ok ()
  | some h =>
    if h = "" then .ok ()
    else
      match token? with
      | none => .error .Unauthorized
      | some t =>
        if t = "" then .error .Unauthorized
        else if hash t = h then .ok () else .error .Unauthorized

/-- Token hash stored by `agent_register` (index.ts:222):
`token ? hashToken(token) : undefined`, so an empty (falsy) token stores no
hash. -/
def jsTokenHash (hash : String → String) : Option String → Option String
  | some t => if t = "" then none else some (hash t)
  | none => none

/-- JS `Array.prototype.slice(0, max)`: a negative end index counts from the
end of the array, and the result is clamped to the array bounds. -/
def jsSliceFrom0 {α : Type} (l : List α) (max : Int) : List α :=
  if max < 0 then l.take ((l.length : Int) + max).toNat else l.take max.toNat

/-- Operation `agent_list` (index.ts:199-208): maps `Object.values(state.agents)`
to records carrying only `agentId`, `capabilities` and `allowlist`. -/
def agent_list {J : Type} (st : BusState J) : List (AgentView J) :=
  st.agents.map fun p => ⟨p.2.agentId, p.2.capabilities, p.2.allowlist⟩

/-- Operation `agent_register` (index.ts:210-231): unconditionally overwrites
the agent record and creates an empty mailbox only when none exists
(`if (!state.mailboxes[agentId])`; an existing array is always truthy). -/
def agent_register {J : Type} (hash : String → String) (st : BusState J)
    (agentId : String) (capabilities : J) (allowlist : List String)
    (token? : Option String) : Except BusError (BusState J) :=
  let agents := setKey st.agents agentId
    ⟨agentId, capabilities, allowlist, jsTokenHash hash token?⟩
  let mailboxes :=
    match getKey st.mailboxes agentId with
    | some _ => st.mailboxes
    | none => setKey st.mailboxes agentId []
  .ok ⟨agents, mailboxes⟩

/-- Operation `agent_unregister` (index.ts:233-244): `requireAgent`, then
`checkToken`, then delete both the agent record and its mailbox. -/
def agent_unregister {J : Type} (hash : String → String) (st : BusState J)
    (agentId : String) (token? : Option String) : Except BusError (BusState J) :=
  match requireAgent st agentId with
  | .error e => .error e
  | .ok agent =>
    match checkToken hash agent token? with
    | .error e => .error e
    | .ok _ => .ok ⟨delKey st.agents agentId, delKey st.mailboxes agentId⟩

/-- Operation `message_send` (index.ts:246-278): `requireAgent(from)`,
`checkToken(sender)`, `requireAgent(to)`, allowlist check, then
`state.mailboxes[to] ??= []; state.mailboxes[to].push(msg)`.  The message id
and timestamp are environment-supplied. -/
def message_send {J : Type} (hash : String → String) (st : BusState J)
    («from» «to» body : String) (meta : Option J) (token? : Option String)
    (id : String) (ts : Int) : Except BusError (BusState J) :=
  match requireAgent st «from» with
  | .error e => .error e
  | .ok sender =>
    match checkToken hash sender token? with
    | .error e => .error e
    | .ok _ =>
      match requireAgent st «to» with
      | .error e => .error e
      | .ok _ =>
        if «to» ∈ sender.allowlist then
          .ok ⟨st.agents,
            setKey st.mailboxes «to»
              ((getKey st.mailboxes «to»).getD [] ++ [⟨id, ts, «from», «to», body, meta⟩])⟩
        else
          .error (.NotAllowed «from» «to»)

/-- Operation `message_read` (index.ts:280-316): after `requireAgent` and
`checkToken`, slices up to `max` messages from the head
(`mailbox.slice(0, max)`), on `drain` reassigns the remainder
(`mailbox.slice(messages.length)`), and reports `remaining` from the
post-drain state (`state.mailboxes[agentId]?.length ?? 0`).  Defaults
`max = 50` and `drain = true` are applied at destructuring. -/
def message_read {J : Type} (hash : String → String) (st : BusState J)
    (agentId : String) (max? : Option Int) (drain? : Option Bool)
    (token? : Option String) : Except BusError (ReadResult J × BusState J) :=
  let max := max?.getD 50
  let drain := drain?.getD true
  match requireAgent st agentId with
  | .error e => .error e
  | .ok agent =>
    match checkToken hash agent token? with
    | .error e => .error e
    | .ok _ =>
      let mailbox := (getKey st.mailboxes agentId).getD []
      let messages := jsSliceFrom0 mailbox max
      let st' : BusState J :=
        if drain then
          ⟨st.agents, setKey st.mailboxes agentId (mailbox.drop messages.length)⟩
        else st
      .ok (⟨agentId, messages.length,
            ((getKey st'.mailboxes agentId).map List.length).getD 0, messages⟩, st')

/-- Result payloads of the six tool calls, as returned through the
dispatcher's success branch. -/
inductive CallResult (J : Type) where
  | listed (agents : List (AgentView J))
  | registered (agentId : String)
  | unregistered (agentId : String)
  | sent («to» : String)
  | readRes (r : ReadResult J)
  | peekedOne (agentId : String) (count : Nat)
  | peekedAll (counts : List (String × Nat))
deriving DecidableEq

/-- Operation `message_peek` (index.ts:318-340): `if (agentId)` is a JS
truthiness test, so an absent or empty agentId selects the all-counts
branch. -/
def message_peek {J : Type} (st : BusState J) (agentId? : Option String) :
    CallResult J :=
  if strTruthy agentId? then
    .peekedOne (agentId?.getD "")
      ((getKey st.mailboxes (agentId?.getD "")).getD []).length
  else
    .peekedAll (st.mailboxes.map fun p => (p.1, p.2.length))

/-- Tool-call requests as dispatched by the `CallToolRequestSchema` handler
(index.ts:194-352).  `messageSend` carries the environment-chosen message id
and timestamp. -/
inductive Request (J : Type) where
  | agentList
  | agentRegister (agentId : String) (capabilities : J) (allowlist : List String)
      (token? : Option String)
  | agentUnregister (agentId : String) (token? : Option String)
  | messageSend («from» «to» body : String) (meta : Option J)
      (token? : Option String) (id : String) (ts : Int)
  | messageRead (agentId : String) (max? : Option Int) (drain? : Option Bool)
      (token? : Option String)
  | messagePeek (agentId? : Option String)
  | unknown (name : String)

/-- The dispatcher (index.ts:194-352): runs the named operation and converts
any thrown error into the uniform error payload, leaving the state as it was
at the start of the call. -/
def handleCall {J : Type} (hash : String → String) :
    Request J → BusState J → Except BusError (CallResult J) × BusState J
  | .agentList, st => (.ok (.listed (agent_list st)), st)
  | .agentRegister agentId caps allow token?, st =>
    match agent_register hash st agentId caps allow token? with
    | .ok st' => (.ok (.registered agentId), st')
    | .error e => (.error e, st)
  | .agentUnregister agentId token?, st =>
    match agent_unregister hash st agentId token? with
    | .ok st' => (.ok (.unregistered agentId), st')
    | .error e => (.error e, st)
  | .messageSend f t body meta token? id ts, st =>
    match message_send hash st f t body meta token? id ts with
    | .ok st' => (.ok (.sent t), st')
    | .error e => (.error e, st)
  | .messageRead agentId max? drain? token?, st =>
    match message_read hash st agentId max? drain? token? with
    | .ok (r, st') => (.ok (.readRes r), st')
    | .error e => (.error e, st)
  | .messagePeek agentId?, st => (.ok (message_peek st agentId?), st)
  | .unknown name, st => (.error (.UnknownTool name), st)

/-- States reachable from the empty `BusState` through dispatcher calls. -/
inductive Reach {J : Type} (hash : String → String) : BusState J → Prop where
  | empty : Reach hash ⟨[], []⟩
  | step (st : BusState J) (req : Request J) (r : Except BusError (CallResult J))
      (st' : BusState J) (h : Reach hash st)
      (heq : handleCall hash req st = (r, st')) : Reach hash st'

/-- Agent record as actually stored when `agent_register` is called without an
`agentId` argument: JS destructuring yields `undefined` for the field, while
the registry key is the coerced string "undefined".  Only the raw variant of
the register path needs this shape. -/
structure RawAgent (J : Type) where
  agentId : Option String
  capabilities : J
  allowlist : List String
  tokenHash : Option String
deriving DecidableEq

/-- Bus state whose registry may hold records with an undefined agentId
field. -/
structure RawBusState (J : Type) where
  agents : List (String × RawAgent J)
  mailboxes : List (String × List (Message J))
deriving DecidableEq

/-- JS coercion of a value used as a property key: `undefined` coerces to the
string "undefined". -/
def jsKey : Option String → String
  | some s => s
  | none => "undefined"

/-- The `agent_register` case of the dispatcher as executed when the required
`agentId` argument may be absent: `args as {...}` is a compile-time cast with
no runtime validation, so destructuring yields `undefined`, the registry key
becomes the coerced string "undefined", and the call still succeeds and
mutates the state. -/
def agent_register_raw {J : Type} (hash : String → String) (st : RawBusState J)
    (agentId? : Option String) (capabilities : J) (allowlist : List String)
    (token? : Option String) : Except BusError (RawBusState J) :=
  let key := jsKey agentId?
  let agents := setKey st.agents key
    ⟨agentId?, capabilities, allowlist, jsTokenHash hash token?⟩
  let mailboxes :=
    match getKey st.mailboxes key with
    | some _ => st.mailboxes
    | none => setKey st.mailboxes key []
  .ok ⟨agents, mailboxes⟩

/-- An agent record with its `tokenHash` removed; used to state that
`agent_list` depends on nothing else. -/
def stripToken {J : Type} (a : Agent J) : Agent J :=
  { a with tokenHash := none }

/-! ### Association-list lemmas -/

theorem getKey_setKey_self {α : Type} (m : List (String × α)) (k : String) (v : α) :
    getKey (setKey m k v) k = some v := by
  induction m with
  | nil => simp [setKey, getKey]
  | cons p rest ih =>
    obtain ⟨k₀, w⟩ := p
    by_cases h : k₀ = k
    · simp [setKey, getKey, h]
    · simp [setKey, getKey, h, ih]

theorem getKey_setKey_ne {α : Type} (m : List (String × α)) (k k' : String) (v : α)
    (h : k' ≠ k) : getKey (setKey m k v) k' = getKey m k' := by
  induction m with
  | nil => simp [setKey, getKey, Ne.symm h]
  | cons p rest ih =>
    obtain ⟨k₀, w⟩ := p
    by_cases h₀ : k₀ = k
    · subst h₀
      simp [setKey, getKey, Ne.symm h]
    · simp only [setKey, if_neg h₀]
      by_cases h₁ : k₀ = k'
      · simp [getKey, h₁]
      · simp [getKey, h₁, ih]

theorem mem_setKey {α : Type} {m : List (String × α)} {k : String} {v : α}
    {p : String × α} (h : p ∈ setKey m k v) : p ∈ m ∨ p = (k, v) := by
  induction m with
  | nil => simpa [setKey] using h
  | cons q rest ih =>
    obtain ⟨k₀, w⟩ := q
    by_cases h₀ : k₀ = k
    · subst h₀
      rcases (by simpa [setKey] using h : p = (k₀, v) ∨ p ∈ rest) with h₁ | h₁
      · exact Or.inr h₁
      · exact Or.inl (List.mem_cons_of_mem _ h₁)
    · rcases (by simpa [setKey, h₀] using h : p = (k₀, w) ∨ p ∈ setKey rest k v) with h₁ | h₁
      · exact Or.inl (by simp [h₁])
      · rcases ih h₁ with h₂ | h₂
        · exact Or.inl (List.mem_cons_of_mem _ h₂)
        · exact Or.inr h₂

theorem keys_setKey_subset {α : Type} (m : List (String × α)) (k : String) (v : α) :
    ∀ x ∈ (setKey m k v).map Prod.fst, x ∈ m.map Prod.fst ∨ x = k := by
  intro x hx
  rcases List.mem_map.mp hx with ⟨p, hp, hpx⟩
  rcases mem_setKey hp with h | h
  · exact Or.inl (hpx ▸ List.mem_map_of_mem Prod.fst h)
  · subst h
    exact Or.inr hpx.symm

theorem nodup_keys_setKey {α : Type} {m : List (String × α)} (k : String) (v : α)
    (h : (m.map Prod.fst).Nodup) : ((setKey m k v).map Prod.fst).Nodup := by
  induction m with
  | nil => simp [setKey]
  | cons p rest ih =>
    obtain ⟨k₀, w⟩ := p
    simp only [List.map_cons, List.nodup_cons] at h
    by_cases h₀ : k₀ = k
    · simpa [setKey, h₀] using h
    · simp only [setKey, if_neg h₀, List.map_cons, List.nodup_cons]
      refine ⟨fun hx => ?_, ih h.2⟩
      rcases keys_setKey_subset rest k v k₀ hx with h₁ | h₁
      · exact h.1 h₁
      · exact h₀ h₁

theorem delKey_sublist {α : Type} (m : List (String × α)) (k : String) :
    List.Sublist (delKey m k) m := by
  induction m with
  | nil => simp [delKey]
  | cons p rest ih =>
    obtain ⟨k₀, w⟩ := p
    by_cases h : k₀ = k
    · simp only [delKey, if_pos h]
      exact List.sublist_cons_self (k₀, w) rest
    · simpa [delKey, h] using ih.cons₂ (k₀, w)

theorem nodup_keys_delKey {α : Type} {m : List (String × α)} (k : String)
    (h : (m.map Prod.fst).Nodup) : ((delKey m k).map Prod.fst).Nodup :=
  List.Nodup.sublist ((delKey_sublist m k).map Prod.fst) h

theorem mem_delKey {α : Type} {m : List (String × α)} {k : String}
    {p : String × α} (h : p ∈ delKey m k) : p ∈ m :=
  (delKey_sublist m k).subset h

/-! ### Operation-level helper lemmas -/

theorem agent_register_eq {J : Type} (hash : String → String) (st : BusState J)
    (agentId : String) (caps : J) (allow : List String) (token? : Option String) :
    agent_register hash st agentId caps allow token? =
      .ok ⟨setKey st.agents agentId ⟨agentId, caps, allow, jsTokenHash hash token?⟩,
        match getKey st.mailboxes agentId with
        | some _ => st.mailboxes
        | none => setKey st.mailboxes agentId []⟩ := rfl

theorem agent_unregister_ok {J : Type} (hash : String → String) (st : BusState J)
    (agentId : String) (token? : Option String) (st' : BusState J)
    (h : agent_unregister hash st agentId token? = .ok st') :
    st' = ⟨delKey st.agents agentId, delKey st.mailboxes agentId⟩ := by
  unfold agent_unregister at h
  split at h
  · exact absurd h (by simp)
  · split at h
    · exact absurd h (by simp)
    · simpa using h.symm

theorem message_send_ok_agents {J : Type} (hash : String → String) (st : BusState J)
    (f t body : String) (meta : Option J) (token? : Option String)
    (id : String) (ts : Int) (st' : BusState J)
    (h : message_send hash st f t body meta token? id ts = .ok st') :
    st'.agents = st.agents := by
  unfold message_send at h
  split at h
  · exact absurd h (by simp)
  · split at h
    · exact absurd h (by simp)
    · split at h
      · exact absurd h (by simp)
      · split at h
        · cases h
          rfl
        · exact absurd h (by simp)

theorem message_read_ok_agents {J : Type} (hash : String → String) (st : BusState J)
    (agentId : String) (max? : Option Int) (drain? : Option Bool)
    (token? : Option String) (r : ReadResult J) (st' : BusState J)
    (h : message_read hash st agentId max? drain? token? = .ok (r, st')) :
    st'.agents = st.agents := by
  unfold message_read at h
  split at h
  · exact absurd h (by simp)
  · split at h
    · exact absurd h (by simp)
    · simp only [Except.ok.injEq, Prod.mk.injEq] at h
      obtain ⟨-, h⟩ := h
      subst h
      split
      · rfl
      · rfl

/-! ### C3: agent_register semantics -/

/-- C3 counterexample: registering with the empty-string token stores no
`tokenHash` at all (JS `token ? hashToken(token) : undefined` treats the empty
token as falsy), whereas the claim demands `tokenHash = hashToken("")`, i.e. a
set hash (`some (hash "")`, never `none`). -/
theorem C3_counterexample :
    agent_register (fun s => s) (⟨[], []⟩ : BusState Unit) "a" () [] (some "") =
      .ok ⟨[("a", ⟨"a", (), [], none⟩)], [("a", [])]⟩ ∧
    some ((fun s : String => s) "") ≠ (none : Option String) :=
  ⟨rfl, by simp⟩

/-- C3 (amended): `agent_register` always succeeds; it fully replaces the
agent record for `agentId` with exactly the supplied capabilities and
allowlist, storing `tokenHash = hash token` when a non-empty token is supplied
and no `tokenHash` when the token is absent or empty; it leaves every other
agent untouched; it never touches an existing mailbox and creates an empty one
exactly when none exists. -/
theorem C3_agent_register_amended {J : Type} (hash : String → String)
    (st : BusState J) (agentId : String) (caps : J) (allow : List String)
    (token? : Option String) :
    isOkE (agent_register hash st agentId caps allow token?) = true ∧
    ∀ st', agent_register hash st agentId caps allow token? = .ok st' →
      getKey st'.agents agentId = some ⟨agentId, caps, allow, jsTokenHash hash token?⟩ ∧
      (∀ k, k ≠ agentId → getKey st'.agents k = getKey st.agents k) ∧
      (∀ box, getKey st.mailboxes agentId = some box → st'.mailboxes = st.mailboxes) ∧
      (getKey st.mailboxes agentId = none →
        getKey st'.mailboxes agentId = some [] ∧
        ∀ k, k ≠ agentId → getKey st'.mailboxes k = getKey st.mailboxes k) := by
  refine ⟨rfl, ?_⟩
  intro st' h
  rw [agent_register_eq] at h
  injection h with h
  subst h
  refine ⟨getKey_setKey_self _ _ _, fun k hk => getKey_setKey_ne _ _ _ _ hk, ?_, ?_⟩
  · intro box hbox
    simp [hbox]
  · intro hnone
    simp only [hnone]
    exact ⟨getKey_setKey_self _ _ _, fun k hk => getKey_setKey_ne _ _ _ _ hk⟩

/-- C3 witness: a concrete registration with token "t" stores exactly the
supplied record with `tokenHash = some "t"` under the identity hash. -/
theorem C3_witness :
    getKey (⟨[("a", ⟨"a", (), ["b"], some "t"⟩)], [("a", [])]⟩ : BusState Unit).agents "a" =
      some ⟨"a", (), ["b"], some "t"⟩ :=
  ((C3_agent_register_amended (fun s => s) (⟨[], []⟩ : BusState Unit) "a" () ["b"]
    (some "t")).2 ⟨[("a", ⟨"a", (), ["b"], some "t"⟩)], [("a", [])]⟩ rfl).1

/-! ### C5: message_read with drain = false -/

/-- C5: `message_read` with `drain = false` leaves the whole `BusState`
unchanged — in particular the mailbox, its length and the `remaining` value —
so an immediately repeated call returns exactly the same result. -/
theorem C5_message_read_nodrain {J : Type} (hash : String → String)
    (st : BusState J) (agentId : String) (max? : Option Int)
    (token? : Option String) (r : ReadResult J) (st' : BusState J)
    (h : message_read hash st agentId max? (some false) token? = .ok (r, st')) :
    st' = st ∧ message_read hash st' agentId max? (some false) token? = .ok (r, st') := by
  have hst : st' = st := by
    unfold message_read at h
    split at h
    · exact absurd h (by simp)
    · split at h
      · exact absurd h (by simp)
      · simp only [Option.getD_some, Bool.false_eq_true, if_false, Except.ok.injEq,
          Prod.mk.injEq] at h
        exact h.2.symm
  exact ⟨hst, hst ▸ h⟩

/-- C5 witness: reading a two-message mailbox with max = 1 and drain = false
returns the oldest message and leaves the state as it was. -/
theorem C5_witness :
    (⟨[("a", ⟨"a", (), [], none⟩)],
      [("a", [⟨"1", 0, "x", "a", "b1", none⟩, ⟨"2", 1, "x", "a", "b2", none⟩])]⟩ : BusState Unit) =
    ⟨[("a", ⟨"a", (), [], none⟩)],
      [("a", [⟨"1", 0, "x", "a", "b1", none⟩, ⟨"2", 1, "x", "a", "b2", none⟩])]⟩ ∧
    message_read (fun s => s)
      ⟨[("a", ⟨"a", (), [], none⟩)],
        [("a", [⟨"1", 0, "x", "a", "b1", none⟩, ⟨"2", 1, "x", "a", "b2", none⟩])]⟩
      "a" (some 1) (some false) none =
      .ok (⟨"a", 1, 2, [⟨"1", 0, "x", "a", "b1", none⟩]⟩,
        ⟨[("a", ⟨"a", (), [], none⟩)],
          [("a", [⟨"1", 0, "x", "a", "b1", none⟩, ⟨"2", 1, "x", "a", "b2", none⟩])]⟩) :=
  C5_message_read_nodrain (fun s => s) _ "a" (some 1) none _ _ rfl

/-! ### C2 and C10: message_read with drain = true -/

theorem message_read_eval {J : Type} (hash : String → String) (st : BusState J)
    (agentId : String) (a : Agent J) (box : List (Message J)) (token? : Option String)
    (max : Int) (drain : Bool)
    (ha : getKey st.agents agentId = some a)
    (htok : checkToken hash a token? = .ok ())
    (hbox : getKey st.mailboxes agentId = some box) :
    message_read hash st agentId (some max) (some drain) token? =
      .ok (⟨agentId, (jsSliceFrom0 box max).length,
          if drain then (box.drop (jsSliceFrom0 box max).length).length else box.length,
          jsSliceFrom0 box max⟩,
        if drain then
          ⟨st.agents, setKey st.mailboxes agentId (box.drop (jsSliceFrom0 box max).length)⟩
        else st) := by
  cases drain with
  | false => simp [message_read, requireAgent, ha, htok, hbox]
  | true => simp [message_read, requireAgent, ha, htok, hbox, getKey_setKey_self]

/-- C2: for a registered agent (whose token check passes) with mailbox
contents `box` and a non-negative `max`, `message_read` with `drain = true`
returns the first `min max box.length` messages oldest-first, removes exactly
those from the head leaving the rest in their original order, reports
`remaining` as the mailbox length after removal, and touches neither the
registry nor any other mailbox. -/
theorem C2_message_read_drain {J : Type} (hash : String → String) (st : BusState J)
    (agentId : String) (a : Agent J) (box : List (Message J)) (token? : Option String)
    (max : Int) (hmax : 0 ≤ max)
    (ha : getKey st.agents agentId = some a)
    (htok : checkToken hash a token? = .ok ())
    (hbox : getKey st.mailboxes agentId = some box) :
    ∃ r st', message_read hash st agentId (some max) (some true) token? = .ok (r, st') ∧
      r.messages = box.take max.toNat ∧
      r.count = min max.toNat box.length ∧
      r.messages ++ box.drop (min max.toNat box.length) = box ∧
      getKey st'.mailboxes agentId = some (box.drop (min max.toNat box.length)) ∧
      r.remaining = box.length - min max.toNat box.length ∧
      st'.agents = st.agents ∧
      (∀ k, k ≠ agentId → getKey st'.mailboxes k = getKey st.mailboxes k) := by
  have hslice : jsSliceFrom0 box max = box.take max.toNat := by
    unfold jsSliceFrom0
    rw [if_neg (by omega)]
  have hlen : (jsSliceFrom0 box max).length = min max.toNat box.length := by
    rw [hslice, List.length_take]
  have hdrop : box.drop (min max.toNat box.length) = box.drop max.toNat := by
    rcases Nat.le_total max.toNat box.length with h | h
    · rw [Nat.min_eq_left h]
    · rw [Nat.min_eq_right h, List.drop_length, List.drop_eq_nil_of_le h]
  refine ⟨_, _, message_read_eval hash st agentId a box token? max true ha htok hbox,
    ?_, ?_, ?_, ?_, ?_, ?_, ?_⟩
  · exact hslice
  · exact hlen
  · show jsSliceFrom0 box max ++ box.drop (min max.toNat box.length) = box
    rw [hslice, hdrop, List.take_append_drop]
  · show getKey (setKey st.mailboxes agentId (box.drop (jsSliceFrom0 box max).length))
        agentId = some (box.drop (min max.toNat box.length))
    rw [getKey_setKey_self, hlen]
  · show (box.drop (jsSliceFrom0 box max).length).length =
      box.length - min max.toNat box.length
    rw [List.length_drop, hlen]
  · rfl
  · intro k hk
    show getKey (setKey st.mailboxes agentId (box.drop (jsSliceFrom0 box max).length)) k =
      getKey st.mailboxes k
    exact getKey_setKey_ne _ _ _ _ hk

/-- C2 witness: draining a two-message mailbox with max = 1 returns the
oldest message, leaves the newer one behind and reports remaining = 1. -/
theorem C2_witness :
    ∃ r st', message_read (fun s => s)
        (⟨[("c", ⟨"c", (), [], none⟩)],
          [("c", [⟨"m1", 0, "x", "c", "one", none⟩, ⟨"m2", 1, "x", "c", "two", none⟩])]⟩ :
          BusState Unit)
        "c" (some 1) (some true) none = .ok (r, st') ∧
      r.messages = [⟨"m1", 0, "x", "c", "one", none⟩,
        ⟨"m2", 1, "x", "c", "two", none⟩].take (Int.toNat 1) ∧
      r.count = min (Int.toNat 1) ([⟨"m1", 0, "x", "c", "one", (none : Option Unit)⟩,
        ⟨"m2", 1, "x", "c", "two", none⟩] : List (Message Unit)).length ∧
      r.messages ++ ([⟨"m1", 0, "x", "c", "one", none⟩,
        ⟨"m2", 1, "x", "c", "two", none⟩] : List (Message Unit)).drop
          (min (Int.toNat 1) 2) =
        [⟨"m1", 0, "x", "c", "one", none⟩, ⟨"m2", 1, "x", "c", "two", none⟩] ∧
      getKey st'.mailboxes "c" = some (([⟨"m1", 0, "x", "c", "one", none⟩,
        ⟨"m2", 1, "x", "c", "two", none⟩] : List (Message Unit)).drop (min (Int.toNat 1) 2)) ∧
      r.remaining = 2 - min (Int.toNat 1) 2 ∧
      st'.agents = [("c", ⟨"c", (), [], none⟩)] ∧
      (∀ k, k ≠ "c" → getKey st'.mailboxes k =
        getKey (⟨[("c", ⟨"c", (), [], none⟩)],
          [("c", [⟨"m1", 0, "x", "c", "one", none⟩, ⟨"m2", 1, "x", "c", "two", none⟩])]⟩ :
          BusState Unit).mailboxes k) :=
  C2_message_read_drain (fun s => s) _ "c" ⟨"c", (), [], none⟩
    [⟨"m1", 0, "x", "c", "one", none⟩, ⟨"m2", 1, "x", "c", "two", none⟩] none 1
    (by omega) rfl rfl rfl

/-- C10: `message_read` accepts a negative `max`: for `-L ≤ max < 0` the JS
`slice(0, max)` keeps all but the last `|max|` messages, so the call returns
the first `L + max` messages oldest-first, with `drain = true` removes exactly
those from the head, and leaves the last `|max|` messages with
`remaining = |max|`. -/
theorem C10_message_read_negative_max {J : Type} (hash : String → String)
    (st : BusState J) (agentId : String) (a : Agent J) (box : List (Message J))
    (token? : Option String) (max : Int)
    (hmax1 : -(box.length : Int) ≤ max) (hmax2 : max < 0)
    (ha : getKey st.agents agentId = some a)
    (htok : checkToken hash a token? = .ok ())
    (hbox : getKey st.mailboxes agentId = some box) :
    ∃ r st', message_read hash st agentId (some max) (some true) token? = .ok (r, st') ∧
      (r.count : Int) = box.length + max ∧
      r.messages = box.take r.count ∧
      r.messages ++ box.drop r.count = box ∧
      getKey st'.mailboxes agentId = some (box.drop r.count) ∧
      (r.remaining : Int) = -max := by
  have hslice : jsSliceFrom0 box max = box.take ((box.length : Int) + max).toNat := by
    unfold jsSliceFrom0
    rw [if_pos hmax2]
  have hn : (((box.length : Int) + max).toNat : Int) = box.length + max := by omega
  have hle : ((box.length : Int) + max).toNat ≤ box.length := by omega
  have hlen : (jsSliceFrom0 box max).length = ((box.length : Int) + max).toNat := by
    rw [hslice, List.length_take]
    omega
  refine ⟨_, _, message_read_eval hash st agentId a box token? max true ha htok hbox,
    ?_, ?_, ?_, ?_, ?_⟩
  · show (((jsSliceFrom0 box max).length : Nat) : Int) = box.length + max
    rw [hlen]
    exact hn
  · show jsSliceFrom0 box max = box.take (jsSliceFrom0 box max).length
    rw [hlen]
    exact hslice
  · show jsSliceFrom0 box max ++ box.drop (jsSliceFrom0 box max).length = box
    rw [hlen, hslice]
    exact List.take_append_drop _ _
  · show getKey (setKey st.mailboxes agentId (box.drop (jsSliceFrom0 box max).length))
        agentId = some (box.drop (jsSliceFrom0 box max).length)
    exact getKey_setKey_self _ _ _
  · show (((box.drop (jsSliceFrom0 box max).length).length : Nat) : Int) = -max
    rw [List.length_drop, hlen]
    omega

/-- C10 witness: max = -1 on a two-message mailbox returns only the oldest
message and leaves the newest behind. -/
theorem C10_witness :
    ∃ r st', message_read (fun s => s)
        (⟨[("d", ⟨"d", (), [], none⟩)],
          [("d", [⟨"n1", 0, "x", "d", "one", none⟩, ⟨"n2", 1, "x", "d", "two", none⟩])]⟩ :
          BusState Unit)
        "d" (some (-1)) (some true) none = .ok (r, st') ∧
      (r.count : Int) =
        (([⟨"n1", 0, "x", "d", "one", none⟩, ⟨"n2", 1, "x", "d", "two", none⟩] :
          List (Message Unit)).length : Int) + (-1) ∧
      r.messages = ([⟨"n1", 0, "x", "d", "one", none⟩,
        ⟨"n2", 1, "x", "d", "two", none⟩] : List (Message Unit)).take r.count ∧
      r.messages ++ ([⟨"n1", 0, "x", "d", "one", none⟩,
        ⟨"n2", 1, "x", "d", "two", none⟩] : List (Message Unit)).drop r.count =
        [⟨"n1", 0, "x", "d", "one", none⟩, ⟨"n2", 1, "x", "d", "two", none⟩] ∧
      getKey st'.mailboxes "d" = some (([⟨"n1", 0, "x", "d", "one", none⟩,
        ⟨"n2", 1, "x", "d", "two", none⟩] : List (Message Unit)).drop r.count) ∧
      (r.remaining : Int) = -(-1) :=
  C10_message_read_negative_max (fun s => s) _ "d" ⟨"d", (), [], none⟩
    [⟨"n1", 0, "x", "d", "one", none⟩, ⟨"n2", 1, "x", "d", "two", none⟩] none (-1)
    (by simp) (by omega) rfl rfl rfl

/-! ### C4: token authentication -/

theorem checkToken_error_iff {J : Type} (hash : String → String) (a : Agent J)
    (token? : Option String) :
    checkToken hash a token? = .error .Unauthorized ↔
      (strTruthy a.tokenHash = true ∧
        (strTruthy token? = false ∨ Option.map hash token? ≠ a.tokenHash)) := by
  cases hth : a.tokenHash with
  | none => simp [checkToken, hth, strTruthy]
  | some h =>
    by_cases hh : h = ""
    · subst hh
      simp [checkToken, hth, strTruthy]
    · cases token? with
      | none => simp [checkToken, hth, strTruthy, hh]
      | some t =>
        by_cases ht : t = ""
        · subst ht
          simp [checkToken, hth, strTruthy, hh]
        · by_cases heq : hash t = h
          · simp [checkToken, hth, strTruthy, hh, ht, heq]
          · simp [checkToken, hth, strTruthy, hh, ht, heq]

theorem checkToken_cases {J : Type} (hash : String → String) (a : Agent J)
    (token? : Option String) :
    checkToken hash a token? = .ok () ∨ checkToken hash a token? = .error .Unauthorized := by
  cases hth : a.tokenHash with
  | none => exact Or.inl (by simp [checkToken, hth])
  | some h =>
    by_cases hh : h = ""
    · exact Or.inl (by simp [checkToken, hth, hh])
    · cases token? with
      | none => exact Or.inr (by simp [checkToken, hth, hh])
      | some t =>
        by_cases ht : t = ""
        · exact Or.inr (by simp [checkToken, hth, hh, ht])
        · by_cases heq : hash t = h
          · exact Or.inl (by simp [checkToken, hth, hh, ht, heq])
          · exact Or.inr (by simp [checkToken, hth, hh, ht, heq])

/-- C4 counterexample: an agent whose stored `tokenHash` is set to the empty
string is never protected — `agent_unregister` without any token succeeds —
because the JS guard `agent.tokenHash && ...` treats the empty string as
falsy.  The claim predicts an Unauthorized failure whenever `tokenHash` is
set and the token is absent. -/
theorem C4_counterexample :
    (getKey (⟨[("a", ⟨"a", (), [], some ""⟩)], [("a", [])]⟩ : BusState Unit).agents
        "a").map Agent.tokenHash = some (some "") ∧
    agent_unregister (fun s => s)
      (⟨[("a", ⟨"a", (), [], some ""⟩)], [("a", [])]⟩ : BusState Unit) "a" none =
      .ok ⟨[], []⟩ :=
  ⟨rfl, rfl⟩

/-- C4 (amended): the token gate fails with Unauthorized exactly when the
agent's `tokenHash` is set and non-empty and the supplied token is absent,
empty, or hashes to a different value (JS truthiness: empty strings count as
unset/missing); the gate has no other outcome; and each of
`agent_unregister`, `message_read` and `message_send` (for the sender) fails
with Unauthorized exactly when the gate does. -/
theorem C4_token_check_amended {J : Type} :
    (∀ (hash : String → String) (a : Agent J) (token? : Option String),
      checkToken hash a token? = .error .Unauthorized ↔
        (strTruthy a.tokenHash = true ∧
          (strTruthy token? = false ∨ Option.map hash token? ≠ a.tokenHash))) ∧
    (∀ (hash : String → String) (a : Agent J) (token? : Option String),
      checkToken hash a token? = .ok () ∨
        checkToken hash a token? = .error .Unauthorized) ∧
    (∀ (hash : String → String) (st : BusState J) (agentId : String) (a : Agent J)
        (token? : Option String), getKey st.agents agentId = some a →
      (agent_unregister hash st agentId token? = .error .Unauthorized ↔
        checkToken hash a token? = .error .Unauthorized)) ∧
    (∀ (hash : String → String) (st : BusState J) (agentId : String) (a : Agent J)
        (token? : Option String) (max? : Option Int) (drain? : Option Bool),
        getKey st.agents agentId = some a →
      (message_read hash st agentId max? drain? token? = .error .Unauthorized ↔
        checkToken hash a token? = .error .Unauthorized)) ∧
    (∀ (hash : String → String) (st : BusState J) (f t body : String) (meta : Option J)
        (token? : Option String) (id : String) (ts : Int) (s : Agent J),
        getKey st.agents f = some s →
      (message_send hash st f t body meta token? id ts = .error .Unauthorized ↔
        checkToken hash s token? = .error .Unauthorized)) := by
  refine ⟨checkToken_error_iff, checkToken_cases, ?_, ?_, ?_⟩
  · intro hash st agentId a token? ha
    rcases checkToken_cases hash a token? with hc | hc
    · simp [agent_unregister, requireAgent, ha, hc]
    · simp [agent_unregister, requireAgent, ha, hc]
  · intro hash st agentId a token? max? drain? ha
    rcases checkToken_cases hash a token? with hc | hc
    · simp [message_read, requireAgent, ha, hc]
    · simp [message_read, requireAgent, ha, hc]
  · intro hash st f t body meta token? id ts s hf
    rcases checkToken_cases hash s token? with hc | hc
    · cases ht : getKey st.agents t with
      | none => simp [message_send, requireAgent, hf, hc, ht]
      | some rcpt =>
        by_cases hmem : t ∈ s.allowlist
        · simp [message_send, requireAgent, hf, hc, ht, hmem]
        · simp [message_send, requireAgent, hf, hc, ht, hmem]
    · simp [message_send, requireAgent, hf, hc]

/-- C4 witness: a protected agent (tokenHash "H") rejects an unregister call
carrying no token. -/
theorem C4_witness :
    agent_unregister (fun _ => "H")
      (⟨[("a", ⟨"a", (), [], some "H"⟩)], [("a", [])]⟩ : BusState Unit) "a" none =
      .error .Unauthorized :=
  ((@C4_token_check_amended Unit).2.2.1 (fun _ => "H")
      ⟨[("a", ⟨"a", (), [], some "H"⟩)], [("a", [])]⟩ "a" ⟨"a", (), [], some "H"⟩
      none rfl).mpr
    (((@C4_token_check_amended Unit).1 (fun _ => "H") ⟨"a", (), [], some "H"⟩ none).mpr
      (by simp [strTruthy]))

/-! ### C1: message_send error conditions and append effect -/

/-- C1 counterexample: the sender's `tokenHash` is set (to the empty string)
and no token is supplied, yet `message_send` succeeds, because the JS guard
`agent.tokenHash && ...` treats an empty `tokenHash` as falsy.  The claim
requires an error result whenever the sender has a tokenHash and the supplied
token is missing. -/
theorem C1_counterexample :
    (getKey (⟨[("s", ⟨"s", (), ["r"], some ""⟩), ("r", ⟨"r", (), [], none⟩)],
        [("s", []), ("r", [])]⟩ : BusState Unit).agents "s").map Agent.tokenHash =
      some (some "") ∧
    isOkE (message_send (fun s => s)
      (⟨[("s", ⟨"s", (), ["r"], some ""⟩), ("r", ⟨"r", (), [], none⟩)],
        [("s", []), ("r", [])]⟩ : BusState Unit) "s" "r" "hi" none none "i" 0) = true :=
  ⟨rfl, rfl⟩

/-- C1 (amended): `message_send` returns an error result iff the sender is
unregistered, the recipient is unregistered, the sender has a non-empty
`tokenHash` and the supplied token is absent, empty, or hashes to a different
value, or the recipient is not in the sender's allowlist (a directional
check: only the sender's allowlist is consulted).  Every error is one of the
four advertised kinds, and on success exactly one message with the given
from/to/body/meta is appended to the tail of the recipient's mailbox, with
the registry and all other mailboxes unchanged. -/
theorem C1_message_send_amended {J : Type} (hash : String → String)
    (st : BusState J) (f t body : String) (meta : Option J)
    (token? : Option String) (id : String) (ts : Int) :
    (isOkE (message_send hash st f t body meta token? id ts) = false ↔
      (getKey st.agents f = none ∨ getKey st.agents t = none ∨
        (∃ s, getKey st.agents f = some s ∧ strTruthy s.tokenHash = true ∧
          (strTruthy token? = false ∨ Option.map hash token? ≠ s.tokenHash)) ∨
        (∃ s, getKey st.agents f = some s ∧ t ∉ s.allowlist))) ∧
    (∀ e, message_send hash st f t body meta token? id ts = .error e →
      e = .AgentNotFound f ∨ e = .Unauthorized ∨ e = .AgentNotFound t ∨
        e = .NotAllowed f t) ∧
    (∀ st', message_send hash st f t body meta token? id ts = .ok st' →
      st'.agents = st.agents ∧
      getKey st'.mailboxes t =
        some ((getKey st.mailboxes t).getD [] ++ [⟨id, ts, f, t, body, meta⟩]) ∧
      ∀ k, k ≠ t → getKey st'.mailboxes k = getKey st.mailboxes k) := by
  cases hf : getKey st.agents f with
  | none =>
    have hsend : message_send hash st f t body meta token? id ts =
        .error (.AgentNotFound f) := by
      simp [message_send, requireAgent, hf]
    refine ⟨?_, ?_, ?_⟩
    · rw [hsend]
      exact iff_of_true rfl (Or.inl rfl)
    · intro e he
      rw [hsend] at he
      injection he with he
      subst he
      exact Or.inl rfl
    · intro st' h
      rw [hsend] at h
      simp at h
  | some s =>
    rcases checkToken_cases hash s token? with hc | hc
    · cases ht : getKey st.agents t with
      | none =>
        have hsend : message_send hash st f t body meta token? id ts =
            .error (.AgentNotFound t) := by
          simp [message_send, requireAgent, hf, hc, ht]
        refine ⟨?_, ?_, ?_⟩
        · rw [hsend]
          exact iff_of_true rfl (Or.inr (Or.inl rfl))
        · intro e he
          rw [hsend] at he
          injection he with he
          subst he
          exact Or.inr (Or.inr (Or.inl rfl))
        · intro st' h
          rw [hsend] at h
          simp at h
      | some rcpt =>
        by_cases hmem : t ∈ s.allowlist
        · have hsend : message_send hash st f t body meta token? id ts =
              .ok ⟨st.agents, setKey st.mailboxes t
                ((getKey st.mailboxes t).getD [] ++ [⟨id, ts, f, t, body, meta⟩])⟩ := by
            simp [message_send, requireAgent, hf, hc, ht, hmem]
          refine ⟨?_, ?_, ?_⟩
          · rw [hsend]
            refine iff_of_false (by simp [isOkE]) ?_
            rintro (h | h | ⟨s', hs', htr, hbad⟩ | ⟨s', hs', hnmem⟩)
            · simp at h
            · simp at h
            · injection hs' with hs'
              subst hs'
              have hbadtok := (checkToken_error_iff hash s token?).mpr ⟨htr, hbad⟩
              rw [hc] at hbadtok
              simp at hbadtok
            · injection hs' with hs'
              subst hs'
              exact hnmem hmem
          · intro e he
            rw [hsend] at he
            simp at he
          · intro st' h
            rw [hsend] at h
            injection h with h
            subst h
            exact ⟨rfl, by rw [getKey_setKey_self],
              fun k hk => getKey_setKey_ne _ _ _ _ hk⟩
        · have hsend : message_send hash st f t body meta token? id ts =
              .error (.NotAllowed f t) := by
            simp [message_send, requireAgent, hf, hc, ht, hmem]
          refine ⟨?_, ?_, ?_⟩
          · rw [hsend]
            exact iff_of_true rfl (Or.inr (Or.inr (Or.inr ⟨s, rfl, hmem⟩)))
          · intro e he
            rw [hsend] at he
            injection he with he
            subst he
            exact Or.inr (Or.inr (Or.inr rfl))
          · intro st' h
            rw [hsend] at h
            simp at h
    · have hsend : message_send hash st f t body meta token? id ts =
          .error .Unauthorized := by
        simp [message_send, requireAgent, hf, hc]
      refine ⟨?_, ?_, ?_⟩
      · rw [hsend]
        exact iff_of_true rfl (Or.inr (Or.inr (Or.inl
          ⟨s, rfl, (checkToken_error_iff hash s token?).mp hc⟩)))
      · intro e he
        rw [hsend] at he
        injection he with he
        subst he
        exact Or.inr (Or.inl rfl)
      · intro st' h
        rw [hsend] at h
        simp at h

/-- C1 witness: a registered, allowlisted, unprotected sender successfully
appends its message to the tail of the recipient's mailbox. -/
theorem C1_witness :
    getKey (⟨[("s", ⟨"s", (), ["r"], none⟩), ("r", ⟨"r", (), [], none⟩)],
        [("s", []), ("r", [⟨"w", 5, "s", "r", "hello", none⟩])]⟩ :
        BusState Unit).mailboxes "r" =
      some ((getKey (⟨[("s", ⟨"s", (), ["r"], none⟩), ("r", ⟨"r", (), [], none⟩)],
        [("s", []), ("r", [])]⟩ : BusState Unit).mailboxes "r").getD [] ++
          [⟨"w", 5, "s", "r", "hello", none⟩]) :=
  ((C1_message_send_amended (fun s => s)
      (⟨[("s", ⟨"s", (), ["r"], none⟩), ("r", ⟨"r", (), [], none⟩)],
        [("s", []), ("r", [])]⟩ : BusState Unit) "s" "r" "hello" none none "w" 5).2.2
    ⟨[("s", ⟨"s", (), ["r"], none⟩), ("r", ⟨"r", (), [], none⟩)],
      [("s", []), ("r", [⟨"w", 5, "s", "r", "hello", none⟩])]⟩ rfl).2.1

/-! ### C8: agent_list exposes no token material -/

/-- C8: `agent_list` returns exactly one `{agentId, capabilities, allowlist}`
entry per registered agent, and its output depends only on the
token-stripped registry: two states whose registries agree up to `tokenHash`
produce identical listings, so no token material is exposed. -/
theorem C8_agent_list_no_token {J : Type} :
    (∀ st : BusState J, agent_list st =
      st.agents.map fun p => ⟨p.2.agentId, p.2.capabilities, p.2.allowlist⟩) ∧
    (∀ st1 st2 : BusState J,
      st1.agents.map (fun p => (p.1, stripToken p.2)) =
        st2.agents.map (fun p => (p.1, stripToken p.2)) →
      agent_list st1 = agent_list st2) := by
  have key : ∀ st : BusState J, agent_list st =
      (st.agents.map (fun p => (p.1, stripToken p.2))).map
        fun p => (⟨p.2.agentId, p.2.capabilities, p.2.allowlist⟩ : AgentView J) := by
    intro st
    rw [List.map_map]
    rfl
  exact ⟨fun st => rfl, fun st1 st2 h => by rw [key st1, key st2, h]⟩

/-- C8 witness: two concrete registries differing only in a stored tokenHash
yield the same listing. -/
theorem C8_witness :
    agent_list (⟨[("a", ⟨"a", (), ["b"], some "secret"⟩)], []⟩ : BusState Unit) =
      agent_list (⟨[("a", ⟨"a", (), ["b"], none⟩)], []⟩ : BusState Unit) :=
  (@C8_agent_list_no_token Unit).2 _ _ rfl

/-! ### C9: failed operations leave the state untouched -/

/-- C9: whenever the dispatcher reports an error result, the `BusState` after
the call is the state before it: every operation performs all of its
validation before any mutation. -/
theorem C9_error_preserves_state {J : Type} (hash : String → String)
    (req : Request J) (st : BusState J)
    (h : isOkE (handleCall hash req st).1 = false) :
    (handleCall hash req st).2 = st := by
  cases req with
  | agentList => rfl
  | agentRegister agentId caps allow token? =>
    cases hop : agent_register hash st agentId caps allow token? with
    | ok st' =>
      rw [show handleCall hash (.agentRegister agentId caps allow token?) st =
          (.ok (.registered agentId), st') from by simp [handleCall, hop]] at h
      simp [isOkE] at h
    | error e =>
      rw [show handleCall hash (.agentRegister agentId caps allow token?) st =
          (.error e, st) from by simp [handleCall, hop]]
  | agentUnregister agentId token? =>
    cases hop : agent_unregister hash st agentId token? with
    | ok st' =>
      rw [show handleCall hash (.agentUnregister agentId token?) st =
          (.ok (.unregistered agentId), st') from by simp [handleCall, hop]] at h
      simp [isOkE] at h
    | error e =>
      rw [show handleCall hash (.agentUnregister agentId token?) st =
          (.error e, st) from by simp [handleCall, hop]]
  | messageSend f t body meta token? id ts =>
    cases hop : message_send hash st f t body meta token? id ts with
    | ok st' =>
      rw [show handleCall hash (.messageSend f t body meta token? id ts) st =
          (.ok (.sent t), st') from by simp [handleCall, hop]] at h
      simp [isOkE] at h
    | error e =>
      rw [show handleCall hash (.messageSend f t body meta token? id ts) st =
          (.error e, st) from by simp [handleCall, hop]]
  | messageRead agentId max? drain? token? =>
    cases hop : message_read hash st agentId max? drain? token? with
    | ok p =>
      obtain ⟨r, st'⟩ := p
      rw [show handleCall hash (.messageRead agentId max? drain? token?) st =
          (.ok (.readRes r), st') from by simp [handleCall, hop]] at h
      simp [isOkE] at h
    | error e =>
      rw [show handleCall hash (.messageRead agentId max? drain? token?) st =
          (.error e, st) from by simp [handleCall, hop]]
  | messagePeek agentId? => rfl
  | unknown name => rfl

/-- C9 witness: unregistering an unknown agent fails and leaves the empty
state unchanged. -/
theorem C9_witness :
    (handleCall (fun s => s) (Request.agentUnregister "x" none)
      (⟨[], []⟩ : BusState Unit)).2 = (⟨[], []⟩ : BusState Unit) :=
  C9_error_preserves_state (fun s => s) (Request.agentUnregister "x" none)
    (⟨[], []⟩ : BusState Unit) rfl

/-! ### C6: registry key invariants on reachable states -/

/-- C6 counterexample: `agent_register` performs no validation of `agentId`,
so registering the empty string from the empty state reaches a state holding
an agent whose agentId is the empty string — refuting the non-emptiness half
of the claimed invariant. -/
theorem C6_counterexample :
    Reach (J := Unit) (fun s => s)
      ⟨[("", ⟨"", (), [], none⟩)], [("", [])]⟩ ∧
    "" ∈ (⟨[("", ⟨"", (), [], none⟩)], [("", [])]⟩ : BusState Unit).agents.map
      Prod.fst :=
  ⟨Reach.step ⟨[], []⟩ (.agentRegister "" () [] none) (.ok (.registered ""))
    ⟨[("", ⟨"", (), [], none⟩)], [("", [])]⟩ Reach.empty rfl,
   by simp⟩

/-- C6 (amended): in every state reachable from the empty `BusState` by
dispatcher calls, the registry keys are pairwise distinct, every stored
record's `agentId` field equals its key, and hence no two Agent records
share an agentId.  (Non-emptiness of agentIds is not enforced; see the
counterexample.) -/
theorem C6_registry_amended {J : Type} (hash : String → String) (st : BusState J)
    (h : Reach hash st) :
    (st.agents.map Prod.fst).Nodup ∧
    (∀ p ∈ st.agents, p.2.agentId = p.1) ∧
    (st.agents.map fun p => p.2.agentId).Nodup := by
  have main : (st.agents.map Prod.fst).Nodup ∧ ∀ p ∈ st.agents, p.2.agentId = p.1 := by
    induction h with
    | empty => simp
    | step st₀ req r st' h₀ heq ih =>
      cases req with
      | agentList =>
        have hst : st₀ = st' := congrArg Prod.snd heq
        rw [← hst]
        exact ih
      | agentRegister agentId caps allow token? =>
        cases hop : agent_register hash st₀ agentId caps allow token? with
        | ok st₁ =>
          rw [show handleCall hash (.agentRegister agentId caps allow token?) st₀ =
              (.ok (.registered agentId), st₁) from by simp [handleCall, hop]] at heq
          injection heq with hr hst
          subst hst
          rw [agent_register_eq] at hop
          injection hop with hop
          rw [← hop]
          refine ⟨nodup_keys_setKey agentId _ ih.1, ?_⟩
          intro p hp
          rcases mem_setKey hp with hmem | hmem
          · exact ih.2 p hmem
          · rw [hmem]
        | error e =>
          rw [show handleCall hash (.agentRegister agentId caps allow token?) st₀ =
              (.error e, st₀) from by simp [handleCall, hop]] at heq
          injection heq with hr hst
          subst hst
          exact ih
      | agentUnregister agentId token? =>
        cases hop : agent_unregister hash st₀ agentId token? with
        | ok st₁ =>
          rw [show handleCall hash (.agentUnregister agentId token?) st₀ =
              (.ok (.unregistered agentId), st₁) from by simp [handleCall, hop]] at heq
          injection heq with hr hst
          subst hst
          rw [agent_unregister_ok hash st₀ agentId token? st₁ hop]
          refine ⟨nodup_keys_delKey agentId ih.1, ?_⟩
          intro p hp
          exact ih.2 p (mem_delKey hp)
        | error e =>
          rw [show handleCall hash (.agentUnregister agentId token?) st₀ =
              (.error e, st₀) from by simp [handleCall, hop]] at heq
          injection heq with hr hst
          subst hst
          exact ih
      | messageSend f t body meta token? id ts =>
        cases hop : message_send hash st₀ f t body meta token? id ts with
        | ok st₁ =>
          rw [show handleCall hash (.messageSend f t body meta token? id ts) st₀ =
              (.ok (.sent t), st₁) from by simp [handleCall, hop]] at heq
          injection heq with hr hst
          subst hst
          rw [message_send_ok_agents hash st₀ f t body meta token? id ts st₁ hop]
          exact ih
        | error e =>
          rw [show handleCall hash (.messageSend f t body meta token? id ts) st₀ =
              (.error e, st₀) from by simp [handleCall, hop]] at heq
          injection heq with hr hst
          subst hst
          exact ih
      | messageRead agentId max? drain? token? =>
        cases hop : message_read hash st₀ agentId max? drain? token? with
        | ok p =>
          obtain ⟨rr, st₁⟩ := p
          rw [show handleCall hash (.messageRead agentId max? drain? token?) st₀ =
              (.ok (.readRes rr), st₁) from by simp [handleCall, hop]] at heq
          injection heq with hr hst
          subst hst
          rw [message_read_ok_agents hash st₀ agentId max? drain? token? rr st₁ hop]
          exact ih
        | error e =>
          rw [show handleCall hash (.messageRead agentId max? drain? token?) st₀ =
              (.error e, st₀) from by simp [handleCall, hop]] at heq
          injection heq with hr hst
          subst hst
          exact ih
      | messagePeek agentId? =>
        have hst : st₀ = st' := congrArg Prod.snd heq
        rw [← hst]
        exact ih
      | unknown name =>
        have hst : st₀ = st' := congrArg Prod.snd heq
        rw [← hst]
        exact ih
  refine ⟨main.1, main.2, ?_⟩
  rw [List.map_congr_left fun p hp => main.2 p hp]
  exact main.1

/-- C6 witness: the uniqueness invariant holds at a concretely reached
one-agent state. -/
theorem C6_witness :
    ((⟨[("a", ⟨"a", (), [], none⟩)], [("a", [])]⟩ : BusState Unit).agents.map
      Prod.fst).Nodup :=
  (C6_registry_amended (fun s => s) ⟨[("a", ⟨"a", (), [], none⟩)], [("a", [])]⟩
    (Reach.step ⟨[], []⟩ (.agentRegister "a" () [] none) (.ok (.registered "a"))
      ⟨[("a", ⟨"a", (), [], none⟩)], [("a", [])]⟩ Reach.empty rfl)).1

/-! ### C7: missing required arguments are not validated -/

/-- C7: calling `agent_register` without the required `agentId` argument is
not rejected: the cast `args as {...}` does no runtime validation, JS
destructuring yields `undefined`, and the handler succeeds, registering a
record under the coerced property key "undefined" and creating a mailbox for
it — the call mutates `BusState` instead of reporting an input error as the
claim requires. -/
theorem C7_register_missing_agentId :
    agent_register_raw (fun s => s) (⟨[], []⟩ : RawBusState Unit) none () [] none =
      .ok ⟨[("undefined", ⟨none, (), [], none⟩)], [("undefined", [])]⟩ ∧
    (⟨[("undefined", ⟨none, (), [], none⟩)], [("undefined", [])]⟩ : RawBusState Unit) ≠
      ⟨[], []⟩ :=
  ⟨rfl, by simp⟩

end Intracom
